import Mathlib

/-!
Verification of the `ecs` crate (a ~150-line no-std entity-component store,
`src/lib.rs`) against its natural-language specification.

The Rust code is shallowly embedded as follows.

* `Entity(u32)` becomes a `Nat` wrapper; `Entity::i` (u32 → usize, infallible
  on the supported ≥32-bit platforms) is the identity on the wrapped number.
* `Data.rc : Vec<u8>` becomes `List Nat` whose entries are kept below 256 by
  the operations themselves (`retain`/`release` compute modulo 2^8, the
  release-mode wrapping semantics of `u8` arithmetic).
* `Data.components : BTreeMap<TypeId, Box<dyn Storage>>` becomes a function
  `TypeId → Option (List V)`.  `TypeId` is modelled as `Nat`; the map
  abstraction is faithful to the `BTreeMap` ADT (lookup / vacant-entry /
  insert are all that the code uses).  Rust stores each type's values in a
  `Vec<T>` of that type behind an unchecked downcast; since every lookup and
  every recovery use the same compile-time type, giving all component types
  one carrier `V` (with a per-`TypeId` default `dflt : TypeId → V` standing
  for `T::default()`) loses nothing the specification speaks about, and the
  downcast itself becomes the identity.
* Fallible spots of the code — the `u32::try_from(id).unwrap()` in `entity`
  (panics when the next index does not fit `u32`), and the slice indexings
  `rc[entity.i()]`, `query_mut::<T>().unwrap()[entity.i()]` (panic when out
  of bounds) — are modelled with `Except ECSError`.
-/

namespace ECS

/-- Stands for `core::any::TypeId`: an opaque, decidably-equal, ordered key. -/
abbrev TypeId := Nat

/-- `pub struct Entity(u32);` — entities are created only by `Data::entity`,
which keeps the wrapped number below `2 ^ 32`. -/
structure Entity where
  id : Nat
deriving DecidableEq, Repr

/-- `Entity::i`: the u32 as a usize index.  The `try_into().unwrap()` cannot
fail on the supported platforms, so this is the identity. -/
def Entity.i (e : Entity) : Nat := e.id

/-- The panics the code can raise, made explicit. -/
inductive ECSError where
  | identifierOverflow
  | indexOutOfBounds
deriving DecidableEq, Repr

/-- `pub struct Data { rc: Vec<u8>, components: BTreeMap<TypeId, Box<dyn Storage>> }`,
with the component map modelled as a partial function from type identity to
that type's dense value sequence. -/
structure Data (V : Type) where
  rc : List Nat
  components : TypeId → Option (List V)

/-- `Data::new` / `Data::default`: empty store. -/
def Data.new (V : Type) : Data V := ⟨[], fun _ => none⟩

/-- `self.components.insert(tid, l)` — map update at one key. -/
def Data.setComps (d : Data V) (tid : TypeId) (l : List V) : Data V :=
  { d with components := fun t => if t = tid then some l else d.components t }

/-- The successful part of `Data::entity`: `rc.push(1)` and one
`push_item` (push of `T::default()`) per registered component sequence. -/
def Data.grow (d : Data V) (dflt : TypeId → V) : Data V :=
  { rc := d.rc ++ [1]
    components := fun t => (d.components t).map (fun l => l ++ [dflt t]) }

/-- `Data::entity`.  `let id = self.rc.len()` is taken before the pushes;
`u32::try_from(id).unwrap()` panics exactly when `id ≥ 2 ^ 32`, modelled as
the `identifierOverflow` error. -/
def Data.entity (d : Data V) (dflt : TypeId → V) : Except ECSError (Entity × Data V) :=
  if d.rc.length < 2 ^ 32 then .ok (⟨d.rc.length⟩, d.grow dflt)
  else .error .identifierOverflow

/-- `Data::insert`.  A vacant entry gets `Box::new(vec![component])` — a
one-element sequence — and the call returns `false`; an occupied entry gets
`query_mut::<T>().unwrap()[entity.i()] = component` (panicking when
`entity.i()` is out of bounds of the existing sequence) and returns `true`. -/
def Data.insert (d : Data V) (tid : TypeId) (e : Entity) (v : V) :
    Except ECSError (Bool × Data V) :=
  match d.components tid with
  | none => .ok (false, d.setComps tid [v])
  | some l =>
    if e.i < l.length then .ok (true, d.setComps tid (l.set e.i v))
    else .error .indexOutOfBounds

/-- `Data::query`: lookup by type identity; the downcast to `&[T]` is the
identity in the model. -/
def Data.query (d : Data V) (tid : TypeId) : Option (List V) :=
  d.components tid

/-- `Data::query_mut`: the same lookup, returning the mutable view, which a
value model reads as the same sequence. -/
def Data.queryMut (d : Data V) (tid : TypeId) : Option (List V) :=
  d.components tid

/-- `Data::retain`: `self.rc[entity.i()] += 1` — `u8` wrapping increment,
panicking (→ error) on an out-of-range index. -/
def Data.retain (d : Data V) (e : Entity) : Except ECSError (Data V) :=
  match d.rc[e.i]? with
  | some c => .ok { d with rc := d.rc.set e.i ((c + 1) % 256) }
  | none => .error .indexOutOfBounds

/-- `Data::release`: `self.rc[entity.i()] -= 1` — `u8` wrapping decrement
(`x - 1 ≡ x + 255 [MOD 256]`), panicking (→ error) on an out-of-range index. -/
def Data.release (d : Data V) (e : Entity) : Except ECSError (Data V) :=
  match d.rc[e.i]? with
  | some c => .ok { d with rc := d.rc.set e.i ((c + 255) % 256) }
  | none => .error .indexOutOfBounds

/-- One public mutating call on the store. -/
inductive Op (V : Type) where
  | entity
  | insert (tid : TypeId) (e : Entity) (v : V)
  | retain (e : Entity)
  | release (e : Entity)

/-- Run one call, keeping only the store (return values are dropped). -/
def Data.applyOp (dflt : TypeId → V) (d : Data V) : Op V → Except ECSError (Data V)
  | .entity => (d.entity dflt).map Prod.snd
  | .insert tid e v => (d.insert tid e v).map Prod.snd
  | .retain e => d.retain e
  | .release e => d.release e

/-- Run a call sequence from a state; `none` when some call panics. -/
def runOps (dflt : TypeId → V) (d : Data V) : List (Op V) → Option (Data V)
  | [] => some d
  | op :: rest =>
    match d.applyOp dflt op with
    | .ok d2 => runOps dflt d2 rest
    | .error _ => none

/-- A fixed default assignment (`T::default()` per type) for the concrete
scenarios below, with `Nat` as the carrier of component values. -/
def dflt0 : TypeId → Nat := fun _ => 0

/-- The first-insert scenario of spec §9 / Scenario B: two entities are
created, then a component type (`TypeId` 0) is registered for the second
entity by inserting the value 7. -/
def bugOps : List (Op Nat) := [.entity, .entity, .insert 0 ⟨1⟩ 7]

/-- The component sequence of type 0 after `bugOps`. -/
def bugQuery : Option (List Nat) :=
  match runOps dflt0 (Data.new Nat) bugOps with
  | some d => d.query 0
  | none => none

/-- The entity count (reference-count sequence length) after `bugOps`. -/
def bugRcLen : Option Nat :=
  match runOps dflt0 (Data.new Nat) bugOps with
  | some d => some d.rc.length
  | none => none

/-- The length of type 0's sequence after `bugOps`. -/
def bugQueryLen : Option Nat :=
  match bugQuery with
  | some l => some l.length
  | none => none

/-- The element of type 0's sequence at the inserting entity's index 1
after `bugOps`. -/
def bugSlot1 : Option Nat :=
  match bugQuery with
  | some l => l[1]?
  | none => none

/-- `k + 1` consecutive `entity()` calls; the result of the last one. -/
def iterEntity (dflt : TypeId → V) : Nat → Data V → Except ECSError (Entity × Data V)
  | 0, d => d.entity dflt
  | k + 1, d =>
    match d.entity dflt with
    | .ok (_, d2) => iterEntity dflt k d2
    | .error err => .error err

/-- The entity returned by the k-th (0-indexed) `entity()` call on a store
created empty, `none` if some call panics. -/
def kthEntity (V : Type) (dflt : TypeId → V) (k : Nat) : Option Entity :=
  match iterEntity dflt k (Data.new V) with
  | .ok (e, _) => some e
  | .error _ => none

theorem entity_ok (d : Data V) (dflt : TypeId → V) (h : d.rc.length < 2 ^ 32) :
    d.entity dflt = .ok (⟨d.rc.length⟩, d.grow dflt) := by
  unfold Data.entity
  rw [if_pos h]

theorem grow_rc_length (d : Data V) (dflt : TypeId → V) :
    (d.grow dflt).rc.length = d.rc.length + 1 := by
  simp [Data.grow]

theorem iterEntity_ok (dflt : TypeId → V) (k : Nat) :
    ∀ d : Data V, d.rc.length + k < 2 ^ 32 →
      ∃ d2, iterEntity dflt k d = .ok (⟨d.rc.length + k⟩, d2) := by
  induction k with
  | zero =>
    intro d h
    exact ⟨d.grow dflt, by rw [Nat.add_zero]; exact entity_ok d dflt (by omega)⟩
  | succ k ih =>
    intro d h
    obtain ⟨d2, hd2⟩ := ih (d.grow dflt) (by rw [grow_rc_length]; omega)
    have hlen : (d.grow dflt).rc.length + k = d.rc.length + (k + 1) := by
      rw [grow_rc_length]; omega
    rw [hlen] at hd2
    refine ⟨d2, ?_⟩
    simp only [iterEntity]
    rw [entity_ok d dflt (by omega)]
    exact hd2

/-- C1: the claim says a first `insert::<T>(e, v)` backfills — one slot per
existing entity, defaults everywhere except slot `e.i()`, which holds `v`.
The code instead creates `vec![v]`: after two entities and
`insert::<T>(⟨1⟩, 7)` the sequence is `[7]` (one slot, the value at index 0),
not the claimed `[0, 7]`, while the store has 2 entities. -/
theorem c1_fresh_insert_is_singleton : bugQuery = some [7] ∧ bugRcLen = some 2 := by
  constructor <;> rfl

/-- C2: the claim says `query::<T>()[e.i()] = v` right after `insert(e, v)`
also when T is newly registered.  In the `bugOps` scenario the inserting
entity's index is 1 but the freshly created sequence is `[7]`, so index 1
holds nothing. -/
theorem c2_fresh_insert_misses_slot : bugSlot1 = none ∧ bugQuery = some [7] := by
  constructor <;> rfl

/-- C3: the claim says every registered type's sequence length equals the
entity count in every reachable state.  After `bugOps` the store holds 2
entities but type 0's sequence has length 1. -/
theorem c3_length_mismatch : bugQueryLen = some 1 ∧ bugRcLen = some 2 := by
  constructor <;> rfl

/-- C4: on a store created empty, the k-th (0-indexed) `entity()` call
returns the entity with index k, and in general the entity returned by any
successful `entity()` call has index equal to the reference-count sequence's
length before the append (`let id = self.rc.len()`). -/
theorem c4_kth_entity_index (V : Type) (dflt : TypeId → V) (k : Nat) (hk : k < 2 ^ 32)
    (d : Data V) (e : Entity) (d2 : Data V) (hok : d.entity dflt = .ok (e, d2)) :
    kthEntity V dflt k = some ⟨k⟩ ∧ e.i = d.rc.length := by
  constructor
  · obtain ⟨d3, hd3⟩ := iterEntity_ok dflt k (Data.new V) (by simpa [Data.new] using hk)
    simp only [Data.new] at hd3
    simp [kthEntity, hd3, Data.new]
  · by_cases h : d.rc.length < 2 ^ 32
    · rw [entity_ok d dflt h] at hok
      injection hok with h1
      injection h1 with h2 h3
      rw [← h2]
      rfl
    · unfold Data.entity at hok
      rw [if_neg h] at hok
      exact Except.noConfusion hok

theorem c4_kth_entity_index_witness :
    (2 < 2 ^ 32 ∧ (Data.new Nat).entity dflt0 = .ok (⟨0⟩, (Data.new Nat).grow dflt0)) ∧
    (kthEntity Nat dflt0 2 = some ⟨2⟩ ∧ Entity.i ⟨0⟩ = (Data.new Nat).rc.length) :=
  ⟨⟨by decide, rfl⟩,
    c4_kth_entity_index Nat dflt0 2 (by decide) (Data.new Nat) ⟨0⟩
      ((Data.new Nat).grow dflt0) rfl⟩

/-- A concrete store holding one entity, with type 0 registered and its
sequence equal to `[5]` (reachable: `entity(); insert::<T0>(⟨0⟩, 5)`). -/
def sampleReg : Data Nat := ⟨[1], fun t => if t = 0 then some [5] else none⟩

/-- C5: `insert` returns `false` exactly on a vacant (unregistered) type —
creating its sequence — and `true` exactly on a registered one, in which
case it overwrites the slot at the inserting entity's index with `v`.
(When the type is registered but `e.i()` is out of bounds the call panics
and returns nothing, so it affects neither direction.) -/
theorem c5_insert_flag_and_write (V : Type) (d d2 : Data V) (tid : TypeId) (e : Entity)
    (v : V) (l : List V) (hreg : d.components tid = some l) (hi : e.i < l.length)
    (hvac : d2.components tid = none) :
    d.insert tid e v = .ok (true, d.setComps tid (l.set e.i v)) ∧
    d2.insert tid e v = .ok (false, d2.setComps tid [v]) := by
  constructor
  · simp [Data.insert, hreg, hi]
  · simp [Data.insert, hvac]

theorem c5_insert_flag_and_write_witness :
    (sampleReg.components 0 = some [5] ∧ Entity.i ⟨0⟩ < ([5] : List Nat).length ∧
      (Data.new Nat).components 0 = none) ∧
    (sampleReg.insert 0 ⟨0⟩ 9 =
        .ok (true, sampleReg.setComps 0 (([5] : List Nat).set (Entity.i ⟨0⟩) 9)) ∧
      (Data.new Nat).insert 0 ⟨0⟩ 9 = .ok (false, (Data.new Nat).setComps 0 [9])) :=
  ⟨⟨rfl, by decide, rfl⟩,
    c5_insert_flag_and_write Nat sampleReg (Data.new Nat) 0 ⟨0⟩ 9 [5] rfl (by decide) rfl⟩

/-- Map update leaves the other keys alone. -/
theorem setComps_components_ne (d : Data V) (tid t : TypeId) (l : List V) (h : t ≠ tid) :
    (d.setComps tid l).components t = d.components t := by
  simp [Data.setComps, h]

theorem grow_components (d : Data V) (dflt : TypeId → V) (t : TypeId) :
    (d.grow dflt).components t = (d.components t).map (fun l => l ++ [dflt t]) := rfl

/-- A successful `insert` of type `tid` does not touch any other type. -/
theorem insert_ok_components_ne (d : Data V) (tid : TypeId) (e : Entity) (v : V)
    (b : Bool) (d2 : Data V) (h : d.insert tid e v = .ok (b, d2)) (t : TypeId)
    (ht : t ≠ tid) : d2.components t = d.components t := by
  unfold Data.insert at h
  cases hc : d.components tid with
  | none =>
    rw [hc] at h
    injection h with h1
    injection h1 with hb hd
    rw [← hd]
    exact setComps_components_ne d tid t [v] ht
  | some l =>
    rw [hc] at h
    replace h : (if e.i < l.length then Except.ok (true, d.setComps tid (l.set e.i v))
        else Except.error ECSError.indexOutOfBounds) = Except.ok (b, d2) := h
    by_cases hi : e.i < l.length
    · rw [if_pos hi] at h
      injection h with h1
      injection h1 with hb hd
      rw [← hd]
      exact setComps_components_ne d tid t (l.set e.i v) ht
    · rw [if_neg hi] at h
      exact Except.noConfusion h

/-- A successful `retain` does not touch the component map. -/
theorem retain_ok_components (d : Data V) (e : Entity) (d2 : Data V)
    (h : d.retain e = .ok d2) : d2.components = d.components := by
  unfold Data.retain at h
  cases hc : d.rc[e.i]? with
  | none => rw [hc] at h; exact Except.noConfusion h
  | some c => rw [hc] at h; injection h with h1; rw [← h1]

/-- A successful `release` does not touch the component map. -/
theorem release_ok_components (d : Data V) (e : Entity) (d2 : Data V)
    (h : d.release e = .ok d2) : d2.components = d.components := by
  unfold Data.release at h
  cases hc : d.rc[e.i]? with
  | none => rw [hc] at h; exact Except.noConfusion h
  | some c => rw [hc] at h; injection h with h1; rw [← h1]

/-- Whether one call is an `insert` of type `U`. -/
def insertsType (U : TypeId) : Op V → Bool
  | Op.insert t _ _ => t == U
  | _ => false

/-- No call in the list inserts a component of type `U`. -/
def noInsertOf (U : TypeId) : List (Op V) → Bool
  | [] => true
  | op :: rest => !insertsType U op && noInsertOf U rest

/-- One successful call that is not an `insert` of type `U` keeps `U`
unregistered. -/
theorem applyOp_absent (dflt : TypeId → V) (U : TypeId) (d d2 : Data V) (op : Op V)
    (hop : insertsType U op = false) (habs : d.components U = none)
    (h : d.applyOp dflt op = .ok d2) : d2.components U = none := by
  cases op with
  | entity =>
    unfold Data.applyOp at h
    by_cases hl : d.rc.length < 2 ^ 32
    · rw [entity_ok d dflt hl] at h
      injection h with h1
      rw [← h1, grow_components, habs]
      rfl
    · unfold Data.entity at h
      rw [if_neg hl] at h
      exact Except.noConfusion h
  | insert tid e v =>
    have htid : U ≠ tid := by
      intro hEq
      rw [insertsType, hEq] at hop
      simp at hop
    replace h : (d.insert tid e v).map Prod.snd = Except.ok d2 := h
    cases hres : d.insert tid e v with
    | error err => rw [hres] at h; exact Except.noConfusion h
    | ok p =>
      rw [hres] at h
      injection h with h1
      rw [← h1, insert_ok_components_ne d tid e v p.1 p.2 (by rw [hres]) U htid]
      exact habs
  | retain e =>
    unfold Data.applyOp at h
    rw [retain_ok_components d e d2 h]
    exact habs
  | release e =>
    unfold Data.applyOp at h
    rw [release_ok_components d e d2 h]
    exact habs

/-- A run with no `insert` of type `U` keeps `U` unregistered. -/
theorem runOps_absent (dflt : TypeId → V) (U : TypeId) (ops : List (Op V)) :
    ∀ d : Data V, d.components U = none → noInsertOf U ops = true →
      ∀ d2, runOps dflt d ops = some d2 → d2.components U = none := by
  induction ops with
  | nil =>
    intro d habs _ d2 h
    unfold runOps at h
    injection h with h1
    rw [← h1]
    exact habs
  | cons op rest ih =>
    intro d habs hno d2 h
    rw [noInsertOf, Bool.and_eq_true, Bool.not_eq_true'] at hno
    unfold runOps at h
    cases hres : d.applyOp dflt op with
    | error err => rw [hres] at h; exact Option.noConfusion h
    | ok d1 =>
      rw [hres] at h
      exact ih d1 (applyOp_absent dflt U d d1 op hno.1 habs hres) hno.2 d2 h

/-- Type `U`'s `query` result after running `ops` on an empty store. -/
def queryAfter (V : Type) (dflt : TypeId → V) (ops : List (Op V)) (U : TypeId) :
    Option (List V) :=
  match runOps dflt (Data.new V) ops with
  | some d => d.query U
  | none => none

/-- Type `U`'s `query_mut` result after running `ops` on an empty store. -/
def queryMutAfter (V : Type) (dflt : TypeId → V) (ops : List (Op V)) (U : TypeId) :
    Option (List V) :=
  match runOps dflt (Data.new V) ops with
  | some d => d.queryMut U
  | none => none

/-- C6: a type `U` never inserted is never registered, so `query::<U>()` and
`query_mut::<U>()` return the defined absent result `none` in every reachable
state; and for a registered type `W` the query is `some` of its sequence —
no other failure exists. -/
theorem c6_absent_is_defined (V : Type) (dflt : TypeId → V) (ops : List (Op V))
    (U : TypeId) (hU : noInsertOf U ops = true)
    (d2 : Data V) (W : TypeId) (l : List V) (hreg : d2.components W = some l) :
    queryAfter V dflt ops U = none ∧ queryMutAfter V dflt ops U = none ∧
    d2.query W = some l := by
  have key := runOps_absent dflt U ops (Data.new V) rfl hU
  refine ⟨?_, ?_, hreg⟩
  · unfold queryAfter
    cases hres : runOps dflt (Data.new V) ops with
    | none => rfl
    | some d3 => exact key d3 hres
  · unfold queryMutAfter
    cases hres : runOps dflt (Data.new V) ops with
    | none => rfl
    | some d3 => exact key d3 hres

theorem c6_absent_is_defined_witness :
    (noInsertOf 0 [Op.entity, Op.insert 1 ⟨0⟩ 5] = true ∧
      sampleReg.components 0 = some [5]) ∧
    (queryAfter Nat dflt0 [Op.entity, Op.insert 1 ⟨0⟩ 5] 0 = none ∧
      queryMutAfter Nat dflt0 [Op.entity, Op.insert 1 ⟨0⟩ 5] 0 = none ∧
      sampleReg.query 0 = some [5]) :=
  ⟨⟨rfl, rfl⟩,
    c6_absent_is_defined Nat dflt0 [Op.entity, Op.insert 1 ⟨0⟩ 5] 0 rfl sampleReg 0 [5] rfl⟩

/-- A `retain` or `release` call on one entity. -/
inductive RcOp where
  | retain
  | release
deriving DecidableEq, Repr

/-- Number of `retain` calls in the sequence. -/
def rcRetains : List RcOp → Nat
  | [] => 0
  | RcOp.retain :: rest => rcRetains rest + 1
  | RcOp.release :: rest => rcRetains rest

/-- Number of `release` calls in the sequence. -/
def rcReleases : List RcOp → Nat
  | [] => 0
  | RcOp.retain :: rest => rcReleases rest
  | RcOp.release :: rest => rcReleases rest + 1

/-- The guard of P6, tracking the running count from `c`: the count is never
driven below 1 and never above 255 at any point of the sequence. -/
def rcGuard : Nat → List RcOp → Bool
  | _, [] => true
  | c, RcOp.retain :: rest => decide (c + 1 ≤ 255) && rcGuard (c + 1) rest
  | c, RcOp.release :: rest => decide (2 ≤ c) && rcGuard (c - 1) rest

/-- Run a retain/release sequence for entity `e`. -/
def runRc (e : Entity) : Data V → List RcOp → Except ECSError (Data V)
  | d, [] => .ok d
  | d, RcOp.retain :: rest =>
    match d.retain e with
    | .ok d2 => runRc e d2 rest
    | .error err => .error err
  | d, RcOp.release :: rest =>
    match d.release e with
    | .ok d2 => runRc e d2 rest
    | .error err => .error err

/-- Entity `e`'s reference count after the sequence, `none` if a call
panics. -/
def rcAfter (d : Data V) (e : Entity) (ops : List RcOp) : Option Nat :=
  match runRc e d ops with
  | .ok d2 => d2.rc[e.i]?
  | .error _ => none

theorem retain_ok (d : Data V) (e : Entity) (c : Nat) (h : d.rc[e.i]? = some c) :
    d.retain e = .ok { d with rc := d.rc.set e.i ((c + 1) % 256) } := by
  unfold Data.retain
  rw [h]

theorem release_ok (d : Data V) (e : Entity) (c : Nat) (h : d.rc[e.i]? = some c) :
    d.release e = .ok { d with rc := d.rc.set e.i ((c + 255) % 256) } := by
  unfold Data.release
  rw [h]

theorem rcAfter_cons_retain (d d2 : Data V) (e : Entity) (rest : List RcOp)
    (h : d.retain e = .ok d2) :
    rcAfter d e (RcOp.retain :: rest) = rcAfter d2 e rest := by
  unfold rcAfter
  rw [runRc, h]

theorem rcAfter_cons_release (d d2 : Data V) (e : Entity) (rest : List RcOp)
    (h : d.release e = .ok d2) :
    rcAfter d e (RcOp.release :: rest) = rcAfter d2 e rest := by
  unfold rcAfter
  rw [runRc, h]

/-- Under the P6 guard the wrapping `u8` arithmetic never wraps, every call
succeeds, and the count satisfies `cnt + #releases = c + #retains`. -/
theorem runRc_count (e : Entity) (ops : List RcOp) :
    ∀ (c : Nat) (d : Data V), d.rc[e.i]? = some c → 1 ≤ c → c ≤ 255 →
      rcGuard c ops = true →
      ∃ cnt, rcAfter d e ops = some cnt ∧ cnt + rcReleases ops = c + rcRetains ops ∧
        1 ≤ cnt ∧ cnt ≤ 255 := by
  induction ops with
  | nil =>
    intro c d hc h1 h255 _
    exact ⟨c, hc, by simp [rcRetains, rcReleases], h1, h255⟩
  | cons op rest ih =>
    intro c d hc h1 h255 hg
    have hidx : e.i < d.rc.length := (List.getElem?_eq_some.mp hc).1
    cases op with
    | retain =>
      rw [rcGuard, Bool.and_eq_true, decide_eq_true_eq] at hg
      have hmod : (c + 1) % 256 = c + 1 := Nat.mod_eq_of_lt (by omega)
      have hret := retain_ok d e c hc
      have hc2 : ({ d with rc := d.rc.set e.i ((c + 1) % 256) } : Data V).rc[e.i]? =
          some (c + 1) := by
        rw [hmod]
        exact List.getElem?_set_self hidx
      obtain ⟨cnt, hafter, heq, hb1, hb255⟩ :=
        ih (c + 1) _ hc2 (by omega) hg.1 hg.2
      refine ⟨cnt, ?_, ?_, hb1, hb255⟩
      · rw [rcAfter_cons_retain d _ e rest hret]
        exact hafter
      · simp only [rcRetains, rcReleases]
        omega
    | release =>
      rw [rcGuard, Bool.and_eq_true, decide_eq_true_eq] at hg
      have hmod : (c + 255) % 256 = c - 1 := by omega
      have hrel := release_ok d e c hc
      have hc2 : ({ d with rc := d.rc.set e.i ((c + 255) % 256) } : Data V).rc[e.i]? =
          some (c - 1) := by
        rw [hmod]
        exact List.getElem?_set_self hidx
      obtain ⟨cnt, hafter, heq, hb1, hb255⟩ :=
        ih (c - 1) _ hc2 (by omega) (by omega) hg.2
      refine ⟨cnt, ?_, ?_, hb1, hb255⟩
      · rw [rcAfter_cons_release d _ e rest hrel]
        exact hafter
      · simp only [rcRetains, rcReleases]
        omega

/-- C7: the count right after `entity()` is 1 (the pushed `rc` byte), and
after any interleaving of n `retain` and m `release` calls on that entity in
which the count never leaves `[1, 255]`, it equals `1 + n - m`. -/
theorem c7_refcount (V : Type) (dflt : TypeId → V) (d : Data V) (e : Entity)
    (d1 : Data V) (hok : d.entity dflt = .ok (e, d1)) (ops : List RcOp)
    (hg : rcGuard 1 ops = true) :
    d1.rc[e.i]? = some 1 ∧
    rcAfter d1 e ops = some (1 + rcRetains ops - rcReleases ops) := by
  have hcases : e = ⟨d.rc.length⟩ ∧ d1 = d.grow dflt := by
    by_cases h : d.rc.length < 2 ^ 32
    · rw [entity_ok d dflt h] at hok
      injection hok with h1
      injection h1 with h2 h3
      exact ⟨h2.symm, h3.symm⟩
    · unfold Data.entity at hok
      rw [if_neg h] at hok
      exact Except.noConfusion hok
  obtain ⟨he, hd1⟩ := hcases
  have hrc1 : d1.rc[e.i]? = some 1 := by
    rw [hd1, he]
    exact List.getElem?_concat_length d.rc 1
  refine ⟨hrc1, ?_⟩
  obtain ⟨cnt, hafter, heq, hb1, hb255⟩ :=
    runRc_count e ops 1 d1 hrc1 (by omega) (by omega) hg
  have hcnt : cnt = 1 + rcRetains ops - rcReleases ops := by omega
  rw [hafter, hcnt]

theorem c7_refcount_witness :
    ((Data.new Nat).entity dflt0 = .ok (⟨0⟩, (Data.new Nat).grow dflt0) ∧
      rcGuard 1 [RcOp.retain, RcOp.retain, RcOp.release] = true) ∧
    (((Data.new Nat).grow dflt0).rc[Entity.i ⟨0⟩]? = some 1 ∧
      rcAfter ((Data.new Nat).grow dflt0) ⟨0⟩ [RcOp.retain, RcOp.retain, RcOp.release] =
        some (1 + rcRetains [RcOp.retain, RcOp.retain, RcOp.release] -
          rcReleases [RcOp.retain, RcOp.retain, RcOp.release])) :=
  ⟨⟨rfl, rfl⟩,
    c7_refcount Nat dflt0 (Data.new Nat) ⟨0⟩ ((Data.new Nat).grow dflt0) rfl
      [RcOp.retain, RcOp.retain, RcOp.release] rfl⟩

/-- C8: when the store already holds `2 ^ 32` entities (or more), the next
index does not fit `u32`, and `entity()` fails with the defined overflow
failure (`u32::try_from(id).unwrap()` — a panic, not a silent wraparound of
the identifier). -/
theorem c8_identifier_overflow (V : Type) (dflt : TypeId → V) (d : Data V)
    (hfull : 2 ^ 32 ≤ d.rc.length) :
    d.entity dflt = .error .identifierOverflow := by
  unfold Data.entity
  rw [if_neg (by omega)]

theorem c8_identifier_overflow_witness :
    2 ^ 32 ≤ (Data.mk (List.replicate (2 ^ 32) 1) (fun _ => none) : Data Nat).rc.length ∧
    (Data.mk (List.replicate (2 ^ 32) 1) (fun _ => none) : Data Nat).entity dflt0 =
      .error .identifierOverflow :=
  ⟨by rw [show (Data.mk (List.replicate (2 ^ 32) 1) (fun _ => none) : Data Nat).rc.length =
        (List.replicate (2 ^ 32) (1 : Nat)).length from rfl, List.length_replicate],
    c8_identifier_overflow Nat dflt0 _
      (by rw [show (Data.mk (List.replicate (2 ^ 32) 1) (fun _ => none) : Data Nat).rc.length =
          (List.replicate (2 ^ 32) (1 : Nat)).length from rfl, List.length_replicate])⟩

/-- C9: an `insert` on a registered type only rewrites that type's slot at
the inserting entity's index: the reference counts, the set of registered
types, every other type's sequence, and every other slot of this type's
sequence are unchanged. -/
theorem c9_insert_frame (V : Type) (d : Data V) (tid : TypeId) (e : Entity) (v : V)
    (l : List V) (hreg : d.components tid = some l) (hi : e.i < l.length) :
    ∃ d2, d.insert tid e v = .ok (true, d2) ∧
      d2.rc = d.rc ∧
      (∀ t, t ≠ tid → d2.components t = d.components t) ∧
      (∀ t, (d2.components t).isSome = (d.components t).isSome) ∧
      ∃ l2, d2.components tid = some l2 ∧ l2.length = l.length ∧
        ∀ j, j ≠ e.i → l2[j]? = l[j]? := by
  refine ⟨d.setComps tid (l.set e.i v), ?_, rfl, ?_, ?_, l.set e.i v, ?_, ?_, ?_⟩
  · simp [Data.insert, hreg, hi]
  · intro t ht
    exact setComps_components_ne d tid t _ ht
  · intro t
    by_cases ht : t = tid
    · subst ht
      simp [Data.setComps, hreg]
    · rw [setComps_components_ne d tid t _ ht]
  · simp [Data.setComps]
  · exact List.length_set ..
  · intro j hj
    exact List.getElem?_set_ne (Ne.symm hj)

theorem c9_insert_frame_witness :
    (sampleReg.components 0 = some [5] ∧ Entity.i ⟨0⟩ < ([5] : List Nat).length) ∧
    (∃ d2, sampleReg.insert 0 ⟨0⟩ 9 = .ok (true, d2) ∧
      d2.rc = sampleReg.rc ∧
      (∀ t, t ≠ 0 → d2.components t = sampleReg.components t) ∧
      (∀ t, (d2.components t).isSome = (sampleReg.components t).isSome) ∧
      ∃ l2, d2.components 0 = some l2 ∧ l2.length = ([5] : List Nat).length ∧
        ∀ j, j ≠ Entity.i ⟨0⟩ → l2[j]? = ([5] : List Nat)[j]?) :=
  ⟨⟨rfl, by decide⟩, c9_insert_frame Nat sampleReg 0 ⟨0⟩ 9 [5] rfl (by decide)⟩

/-- C10: `entity()` only appends — existing reference counts are untouched
(the new one is 1), and every registered sequence keeps its old elements and
gains exactly one appended element equal to its type's default. -/
theorem c10_entity_frame (V : Type) (dflt : TypeId → V) (d : Data V)
    (hlen : d.rc.length < 2 ^ 32) :
    ∃ e d2, d.entity dflt = .ok (e, d2) ∧
      d2.rc = d.rc ++ [1] ∧
      (∀ t l, d.components t = some l → d2.components t = some (l ++ [dflt t])) ∧
      (∀ t, d.components t = none → d2.components t = none) := by
  refine ⟨⟨d.rc.length⟩, d.grow dflt, entity_ok d dflt hlen, rfl, ?_, ?_⟩
  · intro t l h
    rw [grow_components, h]
    rfl
  · intro t h
    rw [grow_components, h]
    rfl

theorem c10_entity_frame_witness :
    sampleReg.rc.length < 2 ^ 32 ∧
    (∃ e d2, sampleReg.entity dflt0 = .ok (e, d2) ∧
      d2.rc = sampleReg.rc ++ [1] ∧
      (∀ t l, sampleReg.components t = some l → d2.components t = some (l ++ [dflt0 t])) ∧
      (∀ t, sampleReg.components t = none → d2.components t = none)) :=
  ⟨by decide, c10_entity_frame Nat dflt0 sampleReg (by decide)⟩

end ECS
